import Mathlib

/-!
Verification of the animation playback runtime of the `engine` repository:
the keyframe sampling core (`AnimData`, `AnimCache`, `AnimCurve`/`AnimTrack`,
`AnimSnapshot` under `src/anim/evaluator/`) and the per-layer facade
(`AnimComponentLayer` under `src/framework/components/anim/`).

Numbers are modelled by `ℚ` (the JS code performs exact arithmetic on the
inputs we reason about), JS arrays by `List`, and the dynamically-typed
values reaching `assignAnimation` by an explicit sum type.  Sources absent
from the repository snapshot (`anim-cache.js`, `anim-controller.js`,
`anim-transition.js`) are modelled from the specification, and each such
definition says so in its doc comment.
-/

namespace Engine

/-- Interpolation mode of a curve (the `ANIM_INTERPOLATION_*` constants). -/
inductive Interp where
  | step
  | linear
  | cubic
deriving DecidableEq

/-- The `AnimData` class of `src/anim/evaluator/anim-track.js` (lines 126-152):
the constructor stores `components` and `data` unchanged, and the two getters
return the stored fields.  There is no validation code in the constructor. -/
structure AnimData where
  components : Int
  data : List ℚ
deriving DecidableEq

/-- The shape of the `AnimCurve` objects consumed by `anim-track.js` and
`anim-snapshot.js` (fields `_input`, `_output`, `_interpolation`; the class
file itself is not among the sources): indices into the owning track's
input/output pools plus an interpolation mode. -/
structure AnimCurve where
  input : Nat
  output : Nat
  interpolation : Interp
deriving DecidableEq

/-- One (time, name) animation event. -/
structure AnimEvent where
  time : ℚ
  name : String
deriving DecidableEq

/-- The `AnimEvents` wrapper referenced by `anim-track.js`: an object holding
an `events` list. -/
structure AnimEvents where
  events : List AnimEvent
deriving DecidableEq

/-- The `AnimTrack` class of `src/anim/evaluator/anim-track.js`: name,
duration, input/output `AnimData` pools, curves and an `AnimEvents` object,
all stored unchanged by the constructor. -/
structure AnimTrack where
  name : String
  duration : ℚ
  inputs : List AnimData
  outputs : List AnimData
  curves : List AnimCurve
  animEvents : AnimEvents
deriving DecidableEq

/-- The `events` getter of `AnimTrack` (line 81): returns the event list held
by the track's `AnimEvents` object. -/
def AnimTrack.events (tr : AnimTrack) : List AnimEvent :=
  tr.animEvents.events

/-- The `events` setter of `AnimTrack` (lines 85-87): replaces the track's
`AnimEvents` object, a public mutator on the supposedly immutable track. -/
def AnimTrack.setEvents (tr : AnimTrack) (ae : AnimEvents) : AnimTrack :=
  { tr with animEvents := ae }

/-- Modelled from the spec: `AnimCache` (`anim-cache.js` is not among the
sources; only its callers are).  Per §3 the cache holds the last query time
and the bracket index; `frac` records the interpolation fraction computed by
`update` (§4.2), and `primed` records whether the cache has been queried at
all, so that a fresh cache performs a cold seek. -/
structure AnimCache where
  time : ℚ
  index : Nat
  frac : ℚ
  primed : Bool
deriving DecidableEq

/-- The state of a freshly constructed `AnimCache` (`new AnimCache()`),
before any query. -/
def AnimCache.fresh : AnimCache :=
  ⟨0, 0, 0, false⟩

/-- Modelled from the spec (§4.2): the bracket scan of `AnimCache.update`,
starting at index `c`.  It returns the first `i ≥ c` such that
`t < times[i+1]`, clamped above to `n-2`; starting the scan at `0` realises
the cold seek together with the "time ≤ first → index 0" clamp, and starting
it at the cached index realises the amortized forward scan. -/
def bracketFrom (times : List ℚ) (t : ℚ) (c : Nat) : Nat :=
  if h : c + 2 < times.length then
    if t < times.getD (c + 1) 0 then c else bracketFrom times t (c + 1)
  else c
termination_by times.length - c

/-- Clamp a rational into the unit interval. -/
def clamp01 (x : ℚ) : ℚ :=
  min 1 (max 0 x)

/-- Modelled from the spec (§4.2): `AnimCache.update(time, inputTimes)`.
A forward (monotonically non-decreasing) query scans from the cached bracket
index; a cold or backward query re-searches from scratch.  The fraction
`(time - t0)/(t1 - t0)` is fixed to `0` on a degenerate bracket `t1 = t0`
(§7) and clamped into `[0,1]` so that out-of-range queries reproduce the
clamped samples of §8. -/
def AnimCache.update (c : AnimCache) (t : ℚ) (times : List ℚ) : AnimCache :=
  let idx := if c.primed = true ∧ c.time ≤ t then bracketFrom times t c.index
             else bracketFrom times t 0
  let t0 := times.getD idx 0
  let t1 := times.getD (idx + 1) 0
  ⟨t, idx, if t1 = t0 then 0 else clamp01 ((t - t0) / (t1 - t0)), true⟩

/-- Linear interpolation between `a` and `b` at fraction `t`. -/
def lerp (a b t : ℚ) : ℚ :=
  a + (b - a) * t

/-- Modelled from the spec (§4.2): `AnimCache.eval(result, interpolation,
output)` produces the `components` values written into the result buffer for
the current bracket.  Step copies the left sample, Linear lerps per
component; for CubicSpline the tangent layout is the open question of §9 and
is modelled glTF-style, each element being `components` in-tangents, then
`components` values, then `components` out-tangents. -/
def AnimCache.eval (c : AnimCache) (interp : Interp) (output : AnimData) : List ℚ :=
  let comp := output.components.toNat
  match interp with
  | .step =>
    (List.range comp).map fun j => output.data.getD (c.index * comp + j) 0
  | .linear =>
    (List.range comp).map fun j =>
      lerp (output.data.getD (c.index * comp + j) 0)
        (output.data.getD ((c.index + 1) * comp + j) 0) c.frac
  | .cubic =>
    (List.range comp).map fun j =>
      let p0 := output.data.getD (c.index * (3 * comp) + comp + j) 0
      let m0 := output.data.getD (c.index * (3 * comp) + 2 * comp + j) 0
      let m1 := output.data.getD ((c.index + 1) * (3 * comp) + j) 0
      let p1 := output.data.getD ((c.index + 1) * (3 * comp) + comp + j) 0
      let u := c.frac
      (2 * u ^ 3 - 3 * u ^ 2 + 1) * p0 + (u ^ 3 - 2 * u ^ 2 + u) * m0
        + (-2 * u ^ 3 + 3 * u ^ 2) * p1 + (u ^ 3 - u ^ 2) * m1

/-- Default curve value used by `List.getD` where the JS code indexes the
curve array. -/
def curve0 : AnimCurve :=
  ⟨0, 0, Interp.step⟩

/-- Default data value used by `List.getD` where the JS code indexes the
input/output pools.  (On an out-of-range index the JS code would throw; the
theorems below only use in-range indices.) -/
def data0 : AnimData :=
  ⟨0, []⟩

/-- The `AnimSnapshot` class of `src/anim/evaluator/anim-snapshot.js`: a name,
the last evaluated time, one `AnimCache` per track input and one result
buffer per track curve. -/
structure AnimSnapshot where
  name : String
  time : ℚ
  cache : List AnimCache
  results : List (List ℚ)
deriving DecidableEq

/-- The `AnimSnapshot` constructor (anim-snapshot.js lines 15-42):
`name := track.name + 'Snapshot'`, `time := -1`, a fresh `AnimCache` per
track input, and per curve a result buffer of `output.components` zeros
where `output` is the track output at the curve's output index. -/
def AnimSnapshot.new (tr : AnimTrack) : AnimSnapshot :=
  { name := tr.name ++ "Snapshot"
    time := -1
    cache := (List.range tr.inputs.length).map fun _ => AnimCache.fresh
    results := tr.curves.map fun curve =>
      List.replicate (tr.outputs.getD curve.output data0).components.toNat 0 }

/-- A snapshot is bound to a track when its cache and result arrays have the
track's cardinalities, as `AnimSnapshot.new` produces them. -/
def AnimSnapshot.bound (sn : AnimSnapshot) (tr : AnimTrack) : Prop :=
  sn.cache.length = tr.inputs.length ∧ sn.results.length = tr.curves.length

/-- `AnimTrack.eval(time, snapshot)` (anim-track.js lines 91-112): store the
time on the snapshot, update the snapshot's cache for every input index with
that input's data, then for every curve overwrite the curve's result buffer
with the values interpolated by the cache at the curve's input index, using
the curve's interpolation mode and the output data at the curve's output
index.  The JS loops index `snapshot._cache[i]` for each input index and
overwrite each `snapshot._results[i]` entrywise; for a snapshot bound to the
track this is the wholesale replacement below. -/
def AnimTrack.eval (tr : AnimTrack) (t : ℚ) (sn : AnimSnapshot) : AnimSnapshot :=
  let cache := (List.range tr.inputs.length).map fun i =>
    AnimCache.update (sn.cache.getD i AnimCache.fresh) t (tr.inputs.getD i data0).data
  let results := (List.range tr.curves.length).map fun i =>
    AnimCache.eval (cache.getD (tr.curves.getD i curve0).input AnimCache.fresh)
      (tr.curves.getD i curve0).interpolation
      (tr.outputs.getD (tr.curves.getD i curve0).output data0)
  { sn with time := t, cache := cache, results := results }

end Engine

namespace Engine

/-- Reading at an in-range position of a `map` over a `range`. -/
theorem getD_map_range {α : Type} (f : Nat → α) (n i : Nat) (d : α) (h : i < n) :
    ((List.range n).map f).getD i d = f i := by
  rw [List.getD_eq_getElem?_getD, List.getElem?_map, List.getElem?_range h]
  rfl

/-- Reading at an in-range position of a mapped list. -/
theorem getD_map_lt {α β : Type} (f : α → β) (l : List α) (i : Nat) (d : β) (d' : α)
    (h : i < l.length) : (l.map f).getD i d = f (l.getD i d') := by
  rw [List.getD_eq_getElem?_getD, List.getElem?_map, List.getElem?_eq_getElem h,
    List.getD_eq_getElem?_getD, List.getElem?_eq_getElem h]
  rfl

end Engine

namespace Engine

/-- C2, counterexample: constructing `AnimData` with `components = 0` (which
violates `components > 0`, and for which the length 2 of the data is not a
multiple of the component count) does not fail: it produces a fully usable
`AnimData` whose getters return the stored values.  The constructor at
anim-track.js lines 126-131 contains no validation. -/
theorem animData_zero_components_is_constructed :
    (AnimData.mk 0 [1, 2]).components = 0 ∧ (AnimData.mk 0 [1, 2]).data = [1, 2] :=
  ⟨rfl, rfl⟩

/-- C2, amended: constructing `AnimData(c, d)` performs no validation at all;
for every `c` and `d` (valid or not) it produces a usable `AnimData` storing
exactly `c` and `d`.  In particular the data is never truncated. -/
theorem animData_mk_stores_fields (c : Int) (d : List ℚ) :
    (AnimData.mk c d).components = c ∧ (AnimData.mk c d).data = d :=
  ⟨rfl, rfl⟩

/-- A concrete track used by the witnesses: one input (times 0, 1/2, 1), one
one-component output, one linear curve over them (§8's end-to-end track). -/
def sampleTrack : AnimTrack :=
  { name := "walk"
    duration := 1
    inputs := [⟨1, [0, 1/2, 1]⟩]
    outputs := [⟨1, [0, 1, 0]⟩]
    curves := [⟨0, 0, Interp.linear⟩]
    animEvents := ⟨[]⟩ }

/-- C1: for a snapshot bound to the track, `AnimTrack.eval(t, snapshot)`
records `t` as the snapshot's time, updates the cache at every input index
`i` with `update(t, inputs[i].data)`, and overwrites the result buffer of
every curve `j` with the values interpolated by `cache[curve.input]` under
`curve.interpolation` from `outputs[curve.output]` (the caches having been
updated first: the second loop of the JS method reads the caches the first
loop wrote). -/
theorem animTrack_eval_spec (tr : AnimTrack) (t : ℚ) (sn : AnimSnapshot)
    (hb : sn.bound tr) (i j : Nat) (hi : i < tr.inputs.length)
    (hj : j < tr.curves.length) :
    (tr.eval t sn).time = t ∧
    (tr.eval t sn).cache.getD i AnimCache.fresh
      = (sn.cache.getD i AnimCache.fresh).update t (tr.inputs.getD i data0).data ∧
    (tr.eval t sn).results.getD j []
      = AnimCache.eval
          ((tr.eval t sn).cache.getD (tr.curves.getD j curve0).input AnimCache.fresh)
          (tr.curves.getD j curve0).interpolation
          (tr.outputs.getD (tr.curves.getD j curve0).output data0) := by
  refine ⟨rfl, ?_, ?_⟩
  · simp only [AnimTrack.eval]
    exact getD_map_range _ _ _ _ hi
  · simp only [AnimTrack.eval]
    exact getD_map_range _ _ _ _ hj

/-- C1, witness: the theorem applied to `sampleTrack`, its own snapshot,
time 1/4 and indices 0/0. -/
theorem animTrack_eval_spec_witness :
    (AnimSnapshot.new sampleTrack).bound sampleTrack ∧
    0 < sampleTrack.inputs.length ∧ 0 < sampleTrack.curves.length ∧
    ((sampleTrack.eval (1/4) (AnimSnapshot.new sampleTrack)).time = 1/4 ∧
      (sampleTrack.eval (1/4) (AnimSnapshot.new sampleTrack)).cache.getD 0 AnimCache.fresh
        = ((AnimSnapshot.new sampleTrack).cache.getD 0 AnimCache.fresh).update (1/4)
            (sampleTrack.inputs.getD 0 data0).data ∧
      (sampleTrack.eval (1/4) (AnimSnapshot.new sampleTrack)).results.getD 0 []
        = AnimCache.eval
            ((sampleTrack.eval (1/4) (AnimSnapshot.new sampleTrack)).cache.getD
              (sampleTrack.curves.getD 0 curve0).input AnimCache.fresh)
            (sampleTrack.curves.getD 0 curve0).interpolation
            (sampleTrack.outputs.getD (sampleTrack.curves.getD 0 curve0).output data0)) :=
  ⟨by constructor <;> rfl, by decide, by decide,
    animTrack_eval_spec sampleTrack (1/4) (AnimSnapshot.new sampleTrack)
      (by constructor <;> rfl) 0 0 (by decide) (by decide)⟩

/-- C3: constructing an `AnimSnapshot` from a track allocates exactly one
`AnimCache` per track input (all in the fresh state), exactly one result
buffer per track curve, and the buffer of curve `i` is
`output.components` zeros where `output` is the track output referenced by
the curve's output index. -/
theorem animSnapshot_new_spec (tr : AnimTrack) (i : Nat) (hi : i < tr.curves.length)
    (hout : (tr.curves.getD i curve0).output < tr.outputs.length) :
    (AnimSnapshot.new tr).cache.length = tr.inputs.length ∧
    (∀ c ∈ (AnimSnapshot.new tr).cache, c = AnimCache.fresh) ∧
    (AnimSnapshot.new tr).results.length = tr.curves.length ∧
    (AnimSnapshot.new tr).results.getD i []
      = List.replicate (tr.outputs.getD (tr.curves.getD i curve0).output data0).components.toNat 0 := by
  refine ⟨?_, ?_, ?_, ?_⟩
  · simp [AnimSnapshot.new]
  · simp [AnimSnapshot.new]
  · simp [AnimSnapshot.new]
  · simp only [AnimSnapshot.new]
    exact getD_map_lt _ tr.curves i [] curve0 hi

/-- Unfolding equation of `bracketFrom` while the scan can still move right. -/
theorem bracketFrom_step (ts : List ℚ) (t : ℚ) (c : Nat) (hlen : c + 2 < ts.length) :
    bracketFrom ts t c = if t < ts.getD (c + 1) 0 then c else bracketFrom ts t (c + 1) := by
  conv_lhs => unfold bracketFrom
  rw [dif_pos hlen]

/-- Unfolding equation of `bracketFrom` at the clamped top end. -/
theorem bracketFrom_stop (ts : List ℚ) (t : ℚ) (c : Nat) (hlen : ¬ c + 2 < ts.length) :
    bracketFrom ts t c = c := by
  conv_lhs => unfold bracketFrom
  rw [dif_neg hlen]

/-- The forward scan never needs to move left: scanning for `t2`'s bracket
starting from the bracket previously found for `t1 ≤ t2` lands on the same
index as scanning for `t2` from `c` directly. -/
theorem bracketFrom_forward (ts : List ℚ) (t1 t2 : ℚ) (h : t1 ≤ t2) (c : Nat) :
    bracketFrom ts t2 (bracketFrom ts t1 c) = bracketFrom ts t2 c := by
  by_cases hlen : c + 2 < ts.length
  · by_cases ht1 : t1 < ts.getD (c + 1) 0
    · rw [bracketFrom_step ts t1 c hlen, if_pos ht1]
    · have ht2 : ¬ t2 < ts.getD (c + 1) 0 := fun hh => ht1 (lt_of_le_of_lt h hh)
      rw [bracketFrom_step ts t1 c hlen, if_neg ht1,
        bracketFrom_step ts t2 c hlen, if_neg ht2]
      exact bracketFrom_forward ts t1 t2 h (c + 1)
  · rw [bracketFrom_stop ts t1 c hlen]
termination_by ts.length - c

/-- Querying a fresh cache at `t1` and then at `t2 ≥ t1` (the amortized
forward path of `AnimCache.update`) leaves the cache in exactly the state a
single cold query at `t2` produces. -/
theorem update_fresh_forward (ts : List ℚ) (t1 t2 : ℚ) (h : t1 ≤ t2) :
    (AnimCache.fresh.update t1 ts).update t2 ts = AnimCache.fresh.update t2 ts := by
  have hb := bracketFrom_forward ts t1 t2 h 0
  simp only [AnimCache.update, AnimCache.fresh]
  simp [h, hb]

/-- C5: for a sorted input time buffer, any output buffer, any interpolation
mode and query times `t1 ≤ t2`, the values the cache produces for `t2` are
identical whether the cache reached `t2` by a forward scan from a previous
query at `t1` or by a cold seek (fresh cache queried directly at `t2`). -/
theorem animCache_forward_eq_cold (ts : List ℚ) (t1 t2 : ℚ)
    (hs : ts.Sorted (· ≤ ·)) (h : t1 ≤ t2) (interp : Interp) (output : AnimData) :
    ((AnimCache.fresh.update t1 ts).update t2 ts).eval interp output
      = (AnimCache.fresh.update t2 ts).eval interp output := by
  rw [update_fresh_forward ts t1 t2 h]

/-- C5, witness: times [0, 1, 2], `t1 = 1/2`, `t2 = 3/2`, linear mode, a
one-component output. -/
theorem animCache_forward_eq_cold_witness :
    ([0, 1, 2] : List ℚ).Sorted (· ≤ ·) ∧ ((1 : ℚ) / 2 ≤ 3 / 2) ∧
    ((AnimCache.fresh.update (1/2) [0, 1, 2]).update (3/2) [0, 1, 2]).eval
        Interp.linear ⟨1, [0, 10, 20]⟩
      = (AnimCache.fresh.update (3/2) [0, 1, 2]).eval Interp.linear ⟨1, [0, 10, 20]⟩ :=
  ⟨by decide, by norm_num,
    animCache_forward_eq_cold [0, 1, 2] (1/2) (3/2) (by decide) (by norm_num)
      Interp.linear ⟨1, [0, 10, 20]⟩⟩

/-- The receiver-and-argument view of `AnimTrack.eval`: the JS method body
assigns only to fields of the `snapshot` argument (`snapshot._time`,
elements of `snapshot._cache` and `snapshot._results`) and contains no
assignment to any field of `this`, so the receiver track comes back
unchanged. -/
def AnimTrack.evalWithTrack (tr : AnimTrack) (t : ℚ) (sn : AnimSnapshot) :
    AnimTrack × AnimSnapshot :=
  (tr, tr.eval t sn)

/-- C8, counterexample: `AnimTrack` is not immutable — its public `events`
setter (anim-track.js lines 85-87) replaces the track's events: on a
concrete track with no events, assigning a one-event `AnimEvents` changes
the value the `events` getter returns. -/
theorem animTrack_events_setter_mutates :
    (sampleTrack.setEvents ⟨[⟨0, "step"⟩]⟩).events ≠ sampleTrack.events := by
  decide

/-- C8, amended: `AnimData` exposes no mutators, `AnimTrack.eval` modifies
none of the track's fields (all evaluation mutation lands on the snapshot),
and the one public mutator on `AnimTrack` — the `events` setter — replaces
the events while leaving the name, duration, inputs, outputs and curves
unchanged. -/
theorem animTrack_immutable_except_events (tr : AnimTrack) (t : ℚ)
    (sn : AnimSnapshot) (ae : AnimEvents) :
    (tr.evalWithTrack t sn).1 = tr ∧
    (tr.setEvents ae).name = tr.name ∧
    (tr.setEvents ae).duration = tr.duration ∧
    (tr.setEvents ae).inputs = tr.inputs ∧
    (tr.setEvents ae).outputs = tr.outputs ∧
    (tr.setEvents ae).curves = tr.curves ∧
    (tr.setEvents ae).events = ae.events :=
  ⟨rfl, rfl, rfl, rfl, rfl, rfl, rfl⟩

/-- C3, witness: the theorem applied to `sampleTrack` at curve index 0. -/
theorem animSnapshot_new_spec_witness :
    0 < sampleTrack.curves.length ∧
    (sampleTrack.curves.getD 0 curve0).output < sampleTrack.outputs.length ∧
    ((AnimSnapshot.new sampleTrack).cache.length = sampleTrack.inputs.length ∧
      (∀ c ∈ (AnimSnapshot.new sampleTrack).cache, c = AnimCache.fresh) ∧
      (AnimSnapshot.new sampleTrack).results.length = sampleTrack.curves.length ∧
      (AnimSnapshot.new sampleTrack).results.getD 0 []
        = List.replicate
            (sampleTrack.outputs.getD (sampleTrack.curves.getD 0 curve0).output data0).components.toNat
            0) :=
  ⟨by decide, by decide,
    animSnapshot_new_spec sampleTrack 0 (by decide) (by decide)⟩

/-- The mutable heap the evaluator works in: the `AnimCache` objects and the
result buffers are JS arrays allocated by the `AnimSnapshot` constructor and
mutated in place by `AnimTrack.eval`; cells are addressed by index. -/
structure Store where
  caches : List AnimCache
  buffers : List (List ℚ)
deriving DecidableEq

/-- A snapshot as a heap object: its `_name` and `_time` fields plus the
references to the cache cells and result buffers its constructor
allocated. -/
structure SnapRef where
  name : String
  time : ℚ
  cacheRefs : List Nat
  resultRefs : List Nat
deriving DecidableEq

/-- Heap-level rendering of the `AnimSnapshot` constructor
(anim-snapshot.js lines 15-42): each `new AnimCache()` and each `storage`
array becomes a fresh cell appended to the store — the constructor never
aliases an existing array — and the snapshot keeps the references. -/
def allocSnapshot (tr : AnimTrack) (st : Store) : SnapRef × Store :=
  (⟨tr.name ++ "Snapshot", -1,
      (List.range tr.inputs.length).map fun i => st.caches.length + i,
      (List.range tr.curves.length).map fun i => st.buffers.length + i⟩,
   ⟨st.caches ++ (List.range tr.inputs.length).map fun _ => AnimCache.fresh,
    st.buffers ++ tr.curves.map fun curve =>
      List.replicate (tr.outputs.getD curve.output data0).components.toNat 0⟩)

/-- One write of the first loop of `AnimTrack.eval`:
`snapshot._cache[i].update(time, inputs[i]._data)`, performed through the
snapshot's reference to its `i`-th cache cell. -/
def evalCachesStep (tr : AnimTrack) (t : ℚ) (sn : SnapRef)
    (cs : List AnimCache) (i : Nat) : List AnimCache :=
  cs.set (sn.cacheRefs.getD i 0)
    ((cs.getD (sn.cacheRefs.getD i 0) AnimCache.fresh).update t
      (tr.inputs.getD i data0).data)

/-- One write of the second loop of `AnimTrack.eval`: the `i`-th curve's
result buffer is overwritten through the snapshot's reference with the
values interpolated by the cache at the curve's input index. -/
def evalBuffersStep (tr : AnimTrack) (sn : SnapRef) (caches : List AnimCache)
    (bs : List (List ℚ)) (i : Nat) : List (List ℚ) :=
  bs.set (sn.resultRefs.getD i 0)
    (AnimCache.eval
      (caches.getD (sn.cacheRefs.getD (tr.curves.getD i curve0).input 0)
        AnimCache.fresh)
      (tr.curves.getD i curve0).interpolation
      (tr.outputs.getD (tr.curves.getD i curve0).output data0))

/-- Heap-level rendering of `AnimTrack.eval(time, snapshot)`: every write of
the JS method goes through the given snapshot's references, and the
snapshot's own `_time` field is set to the query time. -/
def evalStore (tr : AnimTrack) (t : ℚ) (sn : SnapRef) (st : Store) :
    SnapRef × Store :=
  let caches := (List.range tr.inputs.length).foldl (evalCachesStep tr t sn) st.caches
  let buffers := (List.range tr.curves.length).foldl (evalBuffersStep tr sn caches)
    st.buffers
  ({ sn with time := t }, ⟨caches, buffers⟩)

/-- A snapshot's caches as read through its references. -/
def SnapRef.readCaches (sn : SnapRef) (st : Store) : List AnimCache :=
  sn.cacheRefs.map fun r => st.caches.getD r AnimCache.fresh

/-- A snapshot's result buffers as read through its references. -/
def SnapRef.readResults (sn : SnapRef) (st : Store) : List (List ℚ) :=
  sn.resultRefs.map fun r => st.buffers.getD r []

/-- The first of two snapshots allocated back-to-back on the same track. -/
def snapshotA (tr : AnimTrack) (st0 : Store) : SnapRef :=
  (allocSnapshot tr st0).1

/-- The second of two snapshots allocated back-to-back on the same track. -/
def snapshotB (tr : AnimTrack) (st0 : Store) : SnapRef :=
  (allocSnapshot tr (allocSnapshot tr st0).2).1

/-- The store after both snapshots have been allocated. -/
def storeAB (tr : AnimTrack) (st0 : Store) : Store :=
  (allocSnapshot tr (allocSnapshot tr st0).2).2

/-- Evaluating the track at time `t` into the first of the two snapshots. -/
def evalSnapshotA (tr : AnimTrack) (t : ℚ) (st0 : Store) : SnapRef × Store :=
  evalStore tr t (snapshotA tr st0) (storeAB tr st0)

/-- Evaluating the track at time `t` into the second of the two snapshots. -/
def evalSnapshotB (tr : AnimTrack) (t : ℚ) (st0 : Store) : SnapRef × Store :=
  evalStore tr t (snapshotB tr st0) (storeAB tr st0)

/-- The cache-loop writes leave every cell outside the written references
unchanged. -/
theorem getD_foldl_cachesStep_ne (tr : AnimTrack) (t : ℚ) (sn : SnapRef)
    (is : List Nat) (cs : List AnimCache) (r : Nat)
    (h : ∀ i ∈ is, sn.cacheRefs.getD i 0 ≠ r) :
    (is.foldl (evalCachesStep tr t sn) cs).getD r AnimCache.fresh
      = cs.getD r AnimCache.fresh := by
  induction is generalizing cs with
  | nil => rfl
  | cons a as ih =>
    simp only [List.foldl_cons]
    rw [ih _ (fun i hi => h i (List.mem_cons_of_mem a hi))]
    unfold evalCachesStep
    rw [List.getD_eq_getElem?_getD,
      List.getElem?_set_ne (h a (List.mem_cons_self a as)),
      ← List.getD_eq_getElem?_getD]

/-- The buffer-loop writes leave every cell outside the written references
unchanged. -/
theorem getD_foldl_buffersStep_ne (tr : AnimTrack) (sn : SnapRef)
    (caches : List AnimCache) (is : List Nat) (bs : List (List ℚ)) (r : Nat)
    (h : ∀ i ∈ is, sn.resultRefs.getD i 0 ≠ r) :
    (is.foldl (evalBuffersStep tr sn caches) bs).getD r []
      = bs.getD r [] := by
  induction is generalizing bs with
  | nil => rfl
  | cons a as ih =>
    simp only [List.foldl_cons]
    rw [ih _ (fun i hi => h i (List.mem_cons_of_mem a hi))]
    unfold evalBuffersStep
    rw [List.getD_eq_getElem?_getD,
      List.getElem?_set_ne (h a (List.mem_cons_self a as)),
      ← List.getD_eq_getElem?_getD]

/-- The references a constructor run hands out for its caches lie below the
length of the store it returns. -/
theorem alloc_cacheRef_getD_lt (tr : AnimTrack) (st : Store) (i : Nat)
    (hi : i < tr.inputs.length) :
    (allocSnapshot tr st).1.cacheRefs.getD i 0
      < (allocSnapshot tr st).2.caches.length := by
  simp only [allocSnapshot]
  rw [getD_map_range _ _ _ _ hi]
  simp only [List.length_append, List.length_map, List.length_range]
  omega

/-- The references a later constructor run hands out all lie at or above the
length of the store it started from. -/
theorem alloc_cacheRef_ge (tr : AnimTrack) (st : Store) (r : Nat)
    (hr : r ∈ (allocSnapshot tr st).1.cacheRefs) : st.caches.length ≤ r := by
  simp only [allocSnapshot, List.mem_map, List.mem_range] at hr
  obtain ⟨j, hj, rfl⟩ := hr
  exact Nat.le_add_right _ _

/-- Buffer analogue of `alloc_cacheRef_getD_lt`. -/
theorem alloc_resultRef_getD_lt (tr : AnimTrack) (st : Store) (i : Nat)
    (hi : i < tr.curves.length) :
    (allocSnapshot tr st).1.resultRefs.getD i 0
      < (allocSnapshot tr st).2.buffers.length := by
  simp only [allocSnapshot]
  rw [getD_map_range _ _ _ _ hi]
  simp only [List.length_append, List.length_map]
  omega

/-- Buffer analogue of `alloc_cacheRef_ge`. -/
theorem alloc_resultRef_ge (tr : AnimTrack) (st : Store) (r : Nat)
    (hr : r ∈ (allocSnapshot tr st).1.resultRefs) : st.buffers.length ≤ r := by
  simp only [allocSnapshot, List.mem_map, List.mem_range] at hr
  obtain ⟨j, hj, rfl⟩ := hr
  exact Nat.le_add_right _ _

/-- The cache references a constructor run hands out all lie at or above the
length of the store it started from (indexed form). -/
theorem alloc_cacheRef_getD_ge (tr : AnimTrack) (st : Store) (i : Nat)
    (hi : i < tr.inputs.length) :
    st.caches.length ≤ (allocSnapshot tr st).1.cacheRefs.getD i 0 := by
  simp only [allocSnapshot]
  rw [getD_map_range _ _ _ _ hi]
  omega

/-- The cache references a constructor run hands out lie below the length of
the store it returns (membership form). -/
theorem alloc_cacheRef_lt (tr : AnimTrack) (st : Store) (r : Nat)
    (hr : r ∈ (allocSnapshot tr st).1.cacheRefs) :
    r < (allocSnapshot tr st).2.caches.length := by
  simp only [allocSnapshot, List.mem_map, List.mem_range] at hr
  obtain ⟨j, hj, rfl⟩ := hr
  simp only [allocSnapshot, List.length_append, List.length_map, List.length_range]
  omega

/-- Buffer analogue of `alloc_cacheRef_getD_ge`. -/
theorem alloc_resultRef_getD_ge (tr : AnimTrack) (st : Store) (i : Nat)
    (hi : i < tr.curves.length) :
    st.buffers.length ≤ (allocSnapshot tr st).1.resultRefs.getD i 0 := by
  simp only [allocSnapshot]
  rw [getD_map_range _ _ _ _ hi]
  omega

/-- Buffer analogue of `alloc_cacheRef_lt`. -/
theorem alloc_resultRef_lt (tr : AnimTrack) (st : Store) (r : Nat)
    (hr : r ∈ (allocSnapshot tr st).1.resultRefs) :
    r < (allocSnapshot tr st).2.buffers.length := by
  simp only [allocSnapshot, List.mem_map, List.mem_range] at hr
  obtain ⟨j, hj, rfl⟩ := hr
  simp only [allocSnapshot, List.length_append, List.length_map]
  omega

/-- C4: allocate two distinct snapshots A and B on the same shared track and
evaluate the track into either one at any time `t`.  The evaluated
snapshot's own `_time` field becomes `t`, while everything observable
through the other snapshot — its caches and its result buffers, read
through its references — is exactly what it was before the call, in both
directions: evaluating A leaves B unchanged and evaluating B leaves A
unchanged (each snapshot's `_time` field is a field of its own object,
which evaluating the other snapshot never returns modified). -/
theorem snapshot_isolation (tr : AnimTrack) (t : ℚ) (st0 : Store) :
    (evalSnapshotA tr t st0).1.time = t ∧
    SnapRef.readCaches (snapshotB tr st0) (evalSnapshotA tr t st0).2
      = SnapRef.readCaches (snapshotB tr st0) (storeAB tr st0) ∧
    SnapRef.readResults (snapshotB tr st0) (evalSnapshotA tr t st0).2
      = SnapRef.readResults (snapshotB tr st0) (storeAB tr st0) ∧
    (evalSnapshotB tr t st0).1.time = t ∧
    SnapRef.readCaches (snapshotA tr st0) (evalSnapshotB tr t st0).2
      = SnapRef.readCaches (snapshotA tr st0) (storeAB tr st0) ∧
    SnapRef.readResults (snapshotA tr st0) (evalSnapshotB tr t st0).2
      = SnapRef.readResults (snapshotA tr st0) (storeAB tr st0) := by
  refine ⟨rfl, ?_, ?_, rfl, ?_, ?_⟩
  · unfold SnapRef.readCaches
    apply List.map_congr_left
    intro r hr
    have hge : (allocSnapshot tr st0).2.caches.length ≤ r :=
      alloc_cacheRef_ge tr (allocSnapshot tr st0).2 r hr
    have hne : ∀ i ∈ List.range tr.inputs.length,
        (snapshotA tr st0).cacheRefs.getD i 0 ≠ r := by
      intro i hi
      have := alloc_cacheRef_getD_lt tr st0 i (List.mem_range.mp hi)
      unfold snapshotA
      omega
    simp only [evalSnapshotA, evalStore]
    exact getD_foldl_cachesStep_ne tr t (snapshotA tr st0)
      (List.range tr.inputs.length) (storeAB tr st0).caches r hne
  · unfold SnapRef.readResults
    apply List.map_congr_left
    intro r hr
    have hge : (allocSnapshot tr st0).2.buffers.length ≤ r :=
      alloc_resultRef_ge tr (allocSnapshot tr st0).2 r hr
    have hne : ∀ i ∈ List.range tr.curves.length,
        (snapshotA tr st0).resultRefs.getD i 0 ≠ r := by
      intro i hi
      have := alloc_resultRef_getD_lt tr st0 i (List.mem_range.mp hi)
      unfold snapshotA
      omega
    simp only [evalSnapshotA, evalStore]
    exact getD_foldl_buffersStep_ne tr (snapshotA tr st0) _
      (List.range tr.curves.length) (storeAB tr st0).buffers r hne
  · unfold SnapRef.readCaches
    apply List.map_congr_left
    intro r hr
    have hlt : r < (allocSnapshot tr st0).2.caches.length :=
      alloc_cacheRef_lt tr st0 r hr
    have hne : ∀ i ∈ List.range tr.inputs.length,
        (snapshotB tr st0).cacheRefs.getD i 0 ≠ r := by
      intro i hi
      have := alloc_cacheRef_getD_ge tr (allocSnapshot tr st0).2 i
        (List.mem_range.mp hi)
      unfold snapshotB
      omega
    simp only [evalSnapshotB, evalStore]
    exact getD_foldl_cachesStep_ne tr t (snapshotB tr st0)
      (List.range tr.inputs.length) (storeAB tr st0).caches r hne
  · unfold SnapRef.readResults
    apply List.map_congr_left
    intro r hr
    have hlt : r < (allocSnapshot tr st0).2.buffers.length :=
      alloc_resultRef_lt tr st0 r hr
    have hne : ∀ i ∈ List.range tr.curves.length,
        (snapshotB tr st0).resultRefs.getD i 0 ≠ r := by
      intro i hi
      have := alloc_resultRef_getD_ge tr (allocSnapshot tr st0).2 i
        (List.mem_range.mp hi)
      unfold snapshotB
      omega
    simp only [evalSnapshotB, evalStore]
    exact getD_foldl_buffersStep_ne tr (snapshotB tr st0) _
      (List.range tr.curves.length) (storeAB tr st0).buffers r hne

/-- A layer mask: the JS object mapping skeleton node paths to inclusion
rules, here a list of (path, includeChildren) entries; JS `null` is `none`
at the use sites. -/
abbrev Mask := List (String × Bool)

/-- The notifications the layer sends to its owning `AnimComponent`, whose
source is not in the snapshot: the calls `this._component.dirtifyTargets()`
and `this._component.rebind()` are modelled as emitted notifications. -/
inductive Notify where
  | dirtifyTargets
  | rebind
deriving DecidableEq

/-- The observable per-layer fields of `AnimComponentLayer`
(component-layer.js lines 21-28); `_mask` starts as `null`. -/
structure LayerState where
  name : String
  weight : ℚ
  blendType : String
  mask : Option Mask
deriving DecidableEq

/-- The `weight` setter (component-layer.js lines 149-152): stores the value
and unconditionally calls `this._component.dirtifyTargets()`. -/
def setWeight (v : ℚ) (l : LayerState) : LayerState × List Notify :=
  ({ l with weight := v }, [Notify.dirtifyTargets])

/-- The `blendType` setter (lines 158-163): only when the assigned value
differs from the current one (`value !== this._blendType`) does it store the
value and call `this._component.rebind()`; assigning the current value does
nothing at all. -/
def setBlendType (v : String) (l : LayerState) : LayerState × List Notify :=
  if v ≠ l.blendType then ({ l with blendType := v }, [Notify.rebind])
  else (l, [])

/-- `assignMask` (lines 225-230): forward the mask to the controller — whose
verdict "did the channel set change?" is the `changed` argument here, since
`anim-controller.js` is not among the sources — call
`this._component.rebind()` exactly when the controller reports a change,
then store the mask (the `mask` getter at lines 169-171 returns the stored
field). -/
def assignMask (changed : Bool) (m : Option Mask) (l : LayerState) :
    LayerState × List Notify :=
  ({ l with mask := m }, if changed then [Notify.rebind] else [])

/-- A concrete layer used by the witnesses and counterexamples. -/
def sampleLayer : LayerState :=
  ⟨"Base", 1, "OVERWRITE", none⟩

/-- C6: after `assignMask(M)` the mask getter returns exactly `M` (including
`M = null`), and the owning component is rebound — exactly once — if and
only if the controller's `assignMask` reports a channel-set change. -/
theorem assignMask_roundtrip (changed : Bool) (m : Option Mask) (l : LayerState) :
    (assignMask changed m l).1.mask = m ∧
    ((assignMask changed m l).2 = [Notify.rebind] ↔ changed = true) ∧
    (assignMask changed m l).2 = (if changed then [Notify.rebind] else []) := by
  cases changed <;> simp [assignMask]

/-- C6, witness: clearing the mask (`null`) on a layer whose controller
reports a change stores `none` and signals exactly one rebind. -/
theorem assignMask_roundtrip_witness :
    (assignMask true none sampleLayer).1.mask = none ∧
    ((assignMask true none sampleLayer).2 = [Notify.rebind] ↔ true = true) ∧
    (assignMask true none sampleLayer).2 = (if true then [Notify.rebind] else []) :=
  assignMask_roundtrip true none sampleLayer

/-- C9, counterexample: assigning to `blendType` the value it already holds
produces no notification at all — the setter's `value !== this._blendType`
guard skips both the store and the `rebind()` call — refuting the claim
that every assignment to the property notifies the owning aggregator. -/
theorem setBlendType_same_value_silent :
    setBlendType "OVERWRITE" sampleLayer = (sampleLayer, []) := by
  decide

/-- C9, amended: every assignment to `weight` stores the value and notifies
(`dirtifyTargets`); an assignment to `blendType` notifies (`rebind`) if and
only if the assigned value differs from the currently stored one. -/
theorem setters_notify (v : ℚ) (s : String) (l : LayerState) :
    (setWeight v l).1.weight = v ∧
    (setWeight v l).2 = [Notify.dirtifyTargets] ∧
    (setBlendType s l).2 = (if s = l.blendType then [] else [Notify.rebind]) := by
  refine ⟨rfl, rfl, ?_⟩
  by_cases hs : s = l.blendType <;> simp [setBlendType, hs]

/-- C9, witness for the amended statement: changing the blend type of the
sample layer notifies, and a weight assignment always does. -/
theorem setters_notify_witness :
    (setWeight 2 sampleLayer).1.weight = 2 ∧
    (setWeight 2 sampleLayer).2 = [Notify.dirtifyTargets] ∧
    (setBlendType "ADDITIVE" sampleLayer).2
      = (if "ADDITIVE" = sampleLayer.blendType then [] else [Notify.rebind]) :=
  setters_notify 2 "ADDITIVE" sampleLayer

/-- Modelled from the spec (§3): `AnimTransition` (`anim-transition.js` is
not among the sources): a directed edge with a duration and an optional
normalized offset.  The JS fields `from`/`to` are `fromState`/`toState`
here (`from` and `to` are Lean keywords); the defaults `time = 0`,
`transitionOffset = null` follow the documented defaults of
`AnimComponentLayer.transition`. -/
structure AnimTransition where
  fromState : String
  toState : String
  time : ℚ
  transitionOffset : Option ℚ
deriving DecidableEq

/-- The transition `new AnimTransition({ from: 'START', to: nodePath })`
pushed by `assignAnimation` (component-layer.js lines 256-259). -/
def defaultStartTransition (nodePath : String) : AnimTransition :=
  ⟨"START", nodePath, 0, none⟩

/-- The slice of the controller state that the layer code reads and writes
directly: its `_transitions` list (`anim-controller.js` is not among the
sources; everything else the controller owns is behind the abstract update
passed to `assignAnimation` below). -/
structure AnimController where
  transitions : List AnimTransition
deriving DecidableEq

/-- The slice of the owning `AnimComponent` consulted by `assignAnimation`:
its `activate` flag, its `playable` getter and its `playing` flag. -/
structure ComponentState where
  activate : Bool
  playable : Bool
  playing : Bool
deriving DecidableEq

/-- The dynamically-typed second argument of `assignAnimation`: `track`
carries an actual `AnimTrack`; `nullish` is JS `null`/`undefined`, on which
reading `.constructor` throws a TypeError; `other` is any other value, whose
`constructor` is not the `AnimTrack` class itself (this also covers
subclass instances, which the strict `constructor !== AnimTrack` check
rejects). -/
inductive JsValue where
  | track (tr : AnimTrack)
  | nullish
  | other
deriving DecidableEq

/-- The outcome of a non-throwing `assignAnimation` call: the controller and
component afterwards, and whether `Debug.error` was invoked. -/
structure AssignOutcome where
  ctrl : AnimController
  comp : ComponentState
  errorReported : Bool
deriving DecidableEq

/-- `assignAnimation(nodePath, animTrack, speed, loop)` (component-layer.js
lines 249-264).  Reading `animTrack.constructor` throws on `null`/
`undefined` (`Except.error ()`); any other non-`AnimTrack` value is reported
via `Debug.error` and the method returns having changed nothing.  Otherwise
the call forwards to `controller.assignAnimation(nodePath, track, speed,
loop)` — the abstract `ctrlAssign`, since `anim-controller.js` is not among
the sources — then, if the controller's transition list is empty, pushes a
default START transition onto it, and finally sets the component playing
when it is set to activate and is playable. -/
def assignAnimation (ctrlAssign : String → AnimTrack → AnimController → AnimController)
    (nodePath : String) (v : JsValue) (ctrl : AnimController)
    (comp : ComponentState) : Except Unit AssignOutcome :=
  match v with
  | .nullish => Except.error ()
  | .other => Except.ok ⟨ctrl, comp, true⟩
  | .track tr =>
    let c1 := ctrlAssign nodePath tr ctrl
    let c2 := if c1.transitions = [] then
        { c1 with transitions := c1.transitions ++ [defaultStartTransition nodePath] }
      else c1
    let comp2 := if comp.activate && comp.playable then { comp with playing := true }
      else comp
    Except.ok ⟨c2, comp2, false⟩

/-- C7, counterexample: passing `null`/`undefined` — a value that is not an
`AnimTrack` — to `assignAnimation` does not produce the reported usage
error and quiet no-op the claim describes: `animTrack.constructor` throws a
TypeError (the `Except.error` outcome), which propagates out of the
method. -/
theorem assignAnimation_nullish_throws :
    assignAnimation (fun _ _ c => c) "walk" JsValue.nullish ⟨[]⟩ ⟨false, false, false⟩
      = Except.error () :=
  rfl

/-- C7, amended: for every non-nullish value that is not an `AnimTrack`, the
call reports a usage error and is a no-op — the controller is never invoked
(the outcome is the same for every `ctrlAssign`) and the controller and
component state are returned untouched; for `null`/`undefined` the call
instead throws a TypeError before touching anything. -/
theorem assignAnimation_nonTrack_noop
    (ctrlAssign : String → AnimTrack → AnimController → AnimController)
    (nodePath : String) (ctrl : AnimController) (comp : ComponentState) :
    assignAnimation ctrlAssign nodePath JsValue.other ctrl comp
      = Except.ok ⟨ctrl, comp, true⟩ ∧
    assignAnimation ctrlAssign nodePath JsValue.nullish ctrl comp
      = Except.error () :=
  ⟨rfl, rfl⟩

/-- C10: when a track is successfully assigned and the controller's
transition list is empty after `controller.assignAnimation` ran, the layer
pushes exactly the default transition from the state named START to
`nodePath` onto the controller's transition list. -/
theorem assignAnimation_default_transition
    (ctrlAssign : String → AnimTrack → AnimController → AnimController)
    (nodePath : String) (tr : AnimTrack) (ctrl : AnimController)
    (comp : ComponentState)
    (h : (ctrlAssign nodePath tr ctrl).transitions = []) :
    assignAnimation ctrlAssign nodePath (JsValue.track tr) ctrl comp
      = Except.ok ⟨⟨[defaultStartTransition nodePath]⟩,
          (if comp.activate && comp.playable then { comp with playing := true }
            else comp),
          false⟩ := by
  simp [assignAnimation, h]

/-- C10, witness: an identity controller update on a controller with no
transitions; the default START→walk transition is appended and the
activating, playable component starts playing. -/
theorem assignAnimation_default_transition_witness :
    ((fun (_ : String) (_ : AnimTrack) (c : AnimController) => c) "walk" sampleTrack
        ⟨[]⟩).transitions = [] ∧
    assignAnimation (fun _ _ c => c) "walk" (JsValue.track sampleTrack) ⟨[]⟩
        ⟨true, true, false⟩
      = Except.ok ⟨⟨[defaultStartTransition "walk"]⟩, ⟨true, true, true⟩, false⟩ :=
  ⟨rfl, assignAnimation_default_transition (fun _ _ c => c) "walk" sampleTrack ⟨[]⟩
    ⟨true, true, false⟩ rfl⟩

end Engine
